import Mathlib

/-!
# opentrack point tracker: the capture worker and its output conversion

A shallow embedding of `tracker-pt/ftnoir_tracker_pt.cpp`:

* `Tracker_PT.data`  the conversion of the fitted pose into the six-axis array,
* `Tracker_PT.run_cycle`  one iteration of the loop of `Tracker_PT::run`,
* `Tracker_PT.step`  the public operations as transitions of the tracker state.

Numbers are elements of an arbitrary field `F`; the statements about angles are
proved for `F = ℝ`.  The collaborators whose code is not part of the sources at
hand (the point tracker, the camera, the extractor, the math header) appear as
parameters.
-/

namespace Opentrack

/-! ## Geometry primitives -/

/-- The type `vec2` of the numeric header: a point in pixel space. -/
abbrev vec2 (F : Type) := Fin 2 → F

/-- The type `vec3` of the numeric header: a column of three scalars, indexed 0, 1, 2. -/
abbrev vec3 (F : Type) := Fin 3 → F

/-- The type `mat33` of the numeric header: a 3x3 matrix, `R i j` being `R(i,j)`. -/
abbrev mat33 (F : Type) := Matrix (Fin 3) (Fin 3) F

/-- Modelled from the spec: the class `Affine` (affine.h is not among the sources), a
rigid transform made of a 3x3 rotation matrix and a translation 3-vector. -/
structure Affine (F : Type) where
  R : mat33 F
  t : vec3 F

variable {F : Type} [Field F]

/-- Modelled from the spec: the default `Affine`, the zero/identity pose (identity
rotation, zero translation). -/
def Affine.eye : Affine F := ⟨1, 0⟩

/-- Modelled from the spec: `Affine::operator*`, the composition of two rigid
transforms: `X * Y` applies `Y` first, then `X`. -/
def Affine.mul (X Y : Affine F) : Affine F :=
  ⟨X.R * Y.R, X.R.mulVec Y.t + X.t⟩

/-- Modelled from the spec: what `data` takes from compat/math-imports.hpp (not among the
sources): the two-argument arctangent `atan2 y x`, the square root, and the constant
`rad2deg` that converts radians to degrees. -/
structure MathImports (F : Type) where
  atan2 : F → F → F
  sqrt : F → F
  rad2deg : F

/-- The math header read over the reals: `atan2 y x` is the argument of `x + i y`
(range `(-π, π]`, value `0` at the origin), `sqrt` the real square root and
`rad2deg = 180 / π`. -/
def RealMath (m : MathImports ℝ) : Prop :=
  (∀ y x : ℝ, m.atan2 y x = Complex.arg ⟨x, y⟩) ∧
  (∀ x : ℝ, m.sqrt x = Real.sqrt x) ∧
  m.rad2deg = 180 / Real.pi

/-! ## Settings, camera info, tracker state -/

/-- The fields of `pt_settings` (pt-api.hpp) that the tracker reads, with their defaults. -/
structure pt_settings where
  cam_res_x : Int := 640
  cam_res_y : Int := 480
  cam_fps : Int := 30
  m01_x : Int := 0
  m01_y : Int := 0
  m01_z : Int := 0
  m02_x : Int := 0
  m02_y : Int := 0
  m02_z : Int := 0
  t_MH_x : Int := 0
  t_MH_y : Int := 0
  t_MH_z : Int := 0
  fov : Int := 56
  dynamic_pose : Bool := true
  init_phase_timeout : Int := 250

/-- The struct `pt_camera_info` (pt-api.hpp) with its default member values. -/
structure pt_camera_info (F : Type) [Field F] where
  fov : F := 0
  fps : F := 0
  res_x : Int := 0
  res_y : Int := 0
  idx : Int := -1

/-- The enum `pt_camera_open_status` (pt-api.hpp). -/
inductive pt_camera_open_status where
  | cam_open_error
  | cam_open_ok_no_change
  | cam_open_ok_change
  deriving DecidableEq, Repr

/-- Modelled from the spec: `PointModel::N_POINTS` (point_tracker.h is not among the
sources), the number of fiducial points of the model, `N = 3`. -/
def N_POINTS : Nat := 3

/-- Modelled from the spec: the interface of the class `PointTracker` (point_tracker.h is
not among the sources) as far as `Tracker_PT` uses it, over an abstract tracker state
`PT`: `track` fits a pose to the points, `pose` reads the fitted pose, `reset_state`
restarts the fit. -/
structure PointTracker (PT F : Type) [Field F] where
  track : PT → List (vec2 F) → pt_settings → pt_camera_info F → Int → PT
  pose : PT → Affine F
  reset_state : PT → PT

/-- The members of `Tracker_PT` that its own code reads or writes.  The camera, the
extractor, the frames and the widget are external objects; calls to them show up as
events of a cycle. -/
structure Tracker_PT (PT F : Type) where
  s : pt_settings
  point_tracker : PT
  points : List (vec2 F)
  point_count : Nat
  ever_success : Bool

/-! ## Tracker_PT::pose and Tracker_PT::data -/

/-- The method `Tracker_PT::pose`: the pose of the point tracker (read under `data_mtx`). -/
def Tracker_PT.pose {PT : Type} (pt : PointTracker PT F) (st : Tracker_PT PT F) : Affine F :=
  pt.pose st.point_tracker

/-- Modelled from the spec: the axis indices of the six-scalar pose array (the enum
lives in the plugin api header, not among the sources), in the order X, Y, Z, Yaw,
Pitch, Roll. -/
def TX : Nat := 0

/-- Modelled from the spec: index of the Y translation. -/
def TY : Nat := 1

/-- Modelled from the spec: index of the Z translation. -/
def TZ : Nat := 2

/-- Modelled from the spec: index of the yaw angle. -/
def Yaw : Nat := 3

/-- Modelled from the spec: index of the pitch angle. -/
def Pitch : Nat := 4

/-- Modelled from the spec: index of the roll angle. -/
def Roll : Nat := 5

/-- The assignment `data[i] = v` on the memory behind the pointer `double *data`. -/
def store (data : Nat → F) (i : Nat) (v : F) : Nat → F :=
  fun j => if j = i then v else data j

/-- The matrix `R_EG` of `Tracker_PT::data`: from the opengl (G) frame to the
roll-pitch-yaw (E) frame. -/
def R_EG : mat33 F :=
  !![0, 0, -1;
     -1, 0, 0;
     0, 1, 0]

/-- The model-to-head transform `X_MH` built from the settings. -/
def X_MH (s : pt_settings) : Affine F :=
  ⟨1, ![(s.t_MH_x : F), (s.t_MH_y : F), (s.t_MH_z : F)]⟩

/-- The method `Tracker_PT::data`: writes the six axis values into the array of the
caller when a fit has ever succeeded and does nothing otherwise. -/
def Tracker_PT.data {PT : Type} (m : MathImports F) (pt : PointTracker PT F)
    (st : Tracker_PT PT F) (data : Nat → F) : Nat → F :=
  if st.ever_success then
    let X_CM := st.pose pt
    let X_GH := X_CM.mul (X_MH st.s)
    -- translate rotation matrix from opengl (G) to roll-pitch-yaw (E) frame
    let R : mat33 F := R_EG * X_GH.R * R_EG.transpose
    -- get translation(s)
    let t := X_GH.t
    -- extract rotation angles
    let beta := m.atan2 (-(R 2 0)) (m.sqrt (R 2 1 * R 2 1 + R 2 2 * R 2 2))
    let alpha := m.atan2 (R 1 0) (R 0 0)
    let gamma := m.atan2 (R 2 1) (R 2 2)
    let data := store data Yaw (m.rad2deg * alpha)
    let data := store data Pitch (-m.rad2deg * beta)
    let data := store data Roll (m.rad2deg * gamma)
    -- convert to cm
    let data := store data TX (t 0 / 10)
    let data := store data TY (t 1 / 10)
    let data := store data TZ (t 2 / 10)
    data
  else
    data

/-- The block "extract rotation angles" of `Tracker_PT::data` on its own: from the re-based
rotation matrix `R` to the values written to Yaw, Pitch and Roll, in this order.  It is
written over any type with an addition, a multiplication and a negation: the block
contains no division. -/
def rotation_angles {G : Type} [Add G] [Mul G] [Neg G] (m : MathImports G)
    (R : Matrix (Fin 3) (Fin 3) G) : G × G × G :=
  let beta := m.atan2 (-(R 2 0)) (m.sqrt (R 2 1 * R 2 1 + R 2 2 * R 2 2))
  let alpha := m.atan2 (R 1 0) (R 0 0)
  let gamma := m.atan2 (R 2 1) (R 2 2)
  (m.rad2deg * alpha, -m.rad2deg * beta, m.rad2deg * gamma)

/-- The rotation about the z axis whose angle has cosine `c` and sine `s`. -/
def Rz (c s : F) : mat33 F :=
  !![c, -s, 0;
     s, c, 0;
     0, 0, 1]

/-- The rotation about the y axis whose angle has cosine `c` and sine `s`. -/
def Ry (c s : F) : mat33 F :=
  !![c, 0, s;
     0, 1, 0;
     -s, 0, c]

/-- The rotation about the x axis whose angle has cosine `c` and sine `s`. -/
def Rx (c s : F) : mat33 F :=
  !![1, 0, 0;
     0, c, -s;
     0, s, c]

/-! ## One cycle of Tracker_PT::run -/

/-- The two mutexes of `Tracker_PT`. -/
inductive Mutex where
  | camera_mtx
  | data_mtx
  deriving DecidableEq, Repr

/-- What one cycle of `Tracker_PT::run` does to the outside, in program order: taking
and releasing a mutex (a `QMutexLocker` scope), calls to the collaborators, and the two
divisions of the head-center projection with their operands. -/
inductive Event (F : Type) where
  | lock (mtx : Mutex)
  | unlock (mtx : Mutex)
  | get_frame
  | copy_frame
  | extract_points
  | track (points : List (vec2 F)) (init_phase_timeout : Int)
  | read_pose
  | divide (num den : F)
  | draw_head_center (x y : F)
  | update_image

/-- What the collaborators hand to one cycle: whether the `camera` pointer is set, the
result `(new_frame, cam_info)` of `camera->get_frame`, and the points that
`extract_points` writes. -/
structure CycleInput (F : Type) [Field F] where
  camera : Bool
  get_frame : Bool × pt_camera_info F
  extract_points : List (vec2 F)

/-- The flag `new_frame` of a cycle: `false` unless a camera is installed and
`get_frame` reports a new frame. -/
def CycleInput.new_frame (inp : CycleInput F) : Bool :=
  if inp.camera then inp.get_frame.1 else false

/-- The local `cam_info` of a cycle: default-constructed unless a camera is installed. -/
def CycleInput.cam_info (inp : CycleInput F) : pt_camera_info F :=
  if inp.camera then inp.get_frame.2 else {}

/-- The head position `p = (X_CM * X_MH).t` of the projection in `Tracker_PT::run`. -/
def head_position {PT : Type} (pt : PointTracker PT F) (st : Tracker_PT PT F) : vec3 F :=
  ((pt.pose st.point_tracker).mul (X_MH st.s)).t

/-- The body of the loop of `Tracker_PT::run`: one cycle, from the tracker state and the
inputs of the collaborators to the next tracker state and the events of the cycle.
The parameter `get_focal_length` stands for `pt_camera_info::get_focal_length`, which
is declared in pt-api.hpp and defined outside the sources. -/
def Tracker_PT.run_cycle {PT : Type} (pt : PointTracker PT F)
    (get_focal_length : pt_camera_info F → F)
    (st : Tracker_PT PT F) (inp : CycleInput F) : Tracker_PT PT F × List (Event F) :=
  let cam_info := inp.cam_info
  let new_frame := inp.new_frame
  let ev_camera : List (Event F) :=
    [Event.lock Mutex.camera_mtx] ++ (if inp.camera then [Event.get_frame] else [])
      ++ [Event.unlock Mutex.camera_mtx]
  if new_frame then
    let points := inp.extract_points
    let st1 : Tracker_PT PT F := { st with points := points, point_count := points.length }
    let fx := get_focal_length cam_info
    let success : Bool := decide (N_POINTS ≤ points.length)
    let timeout : Int := if st1.s.dynamic_pose then st1.s.init_phase_timeout else 0
    let st2 : Tracker_PT PT F :=
      if success then
        { st1 with
          point_tracker := pt.track st1.point_tracker points st1.s cam_info timeout
          ever_success := true }
      else st1
    let ev_track : List (Event F) := if success then [Event.track points timeout] else []
    let p := head_position pt st2
    (st2,
      ev_camera ++ [Event.copy_frame, Event.extract_points] ++ ev_track
        ++ [Event.lock Mutex.data_mtx, Event.read_pose, Event.unlock Mutex.data_mtx,
            Event.divide (p 0 * fx) (p 2), Event.divide (p 1 * fx) (p 2),
            Event.draw_head_center ((p 0 * fx) / p 2) ((p 1 * fx) / p 2),
            Event.update_image])
  else
    (st, ev_camera)

/-- The mutexes held after an event, given those held before it. -/
def locks_after (held : List Mutex) : Event F → List Mutex
  | Event.lock mtx => mtx :: held
  | Event.unlock mtx => held.erase mtx
  | _ => held

/-- Whether every `track` event of a trace happens while `data_mtx` is held, starting
from the mutexes `held`. -/
def track_under_data_mtx : List Mutex → List (Event F) → Bool
  | _, [] => true
  | held, Event.track pts tmo :: rest =>
      decide (Mutex.data_mtx ∈ held)
        && track_under_data_mtx (locks_after held (Event.track pts tmo)) rest
  | held, e :: rest => track_under_data_mtx (locks_after held e) rest

/-! ## The operations of Tracker_PT as transitions -/

/-- The operations on a running tracker, each with what its collaborators answer. -/
inductive Op (F : Type) [Field F] where
  | run_cycle (inp : CycleInput F)
  | maybe_reopen_camera (status : pt_camera_open_status)
  | set_fov (value : Int)
  | center
  | data (arr : Nat → F)
  | pose
  | get_n_points
  | get_cam_info (result : Bool × pt_camera_info F)

/-- The method `Tracker_PT::maybe_reopen_camera`: calls `camera->start` and does the same
nothing for each of the three statuses. -/
def Tracker_PT.maybe_reopen_camera {PT : Type} (st : Tracker_PT PT F)
    (status : pt_camera_open_status) : Tracker_PT PT F :=
  match status with
  | pt_camera_open_status.cam_open_error => st
  | pt_camera_open_status.cam_open_ok_change => st
  | pt_camera_open_status.cam_open_ok_no_change => st

/-- The method `Tracker_PT::set_fov`: forwards the value to the camera. -/
def Tracker_PT.set_fov {PT : Type} (st : Tracker_PT PT F) (_value : Int) : Tracker_PT PT F :=
  st

/-- The method `Tracker_PT::center`: resets the state of the point tracker and returns
`false`. -/
def Tracker_PT.center {PT : Type} (pt : PointTracker PT F) (st : Tracker_PT PT F) :
    Tracker_PT PT F × Bool :=
  ({ st with point_tracker := pt.reset_state st.point_tracker }, false)

/-- The method `Tracker_PT::get_n_points`. -/
def Tracker_PT.get_n_points {PT : Type} (st : Tracker_PT PT F) : Int :=
  (st.point_count : Int)

/-- The method `Tracker_PT::get_cam_info`: returns what `camera->get_info` returns. -/
def Tracker_PT.get_cam_info {PT : Type} (_st : Tracker_PT PT F)
    (result : Bool × pt_camera_info F) : Bool × pt_camera_info F :=
  result

/-- The tracker state after an operation. -/
def Tracker_PT.step {PT : Type} (pt : PointTracker PT F)
    (get_focal_length : pt_camera_info F → F)
    (st : Tracker_PT PT F) : Op F → Tracker_PT PT F
  | Op.run_cycle inp => (st.run_cycle pt get_focal_length inp).1
  | Op.maybe_reopen_camera status => st.maybe_reopen_camera status
  | Op.set_fov value => st.set_fov value
  | Op.center => (st.center pt).1
  | Op.data _ => st
  | Op.pose => st
  | Op.get_n_points => st
  | Op.get_cam_info _ => st

/-- Whether an operation is a cycle of `run` that receives a new frame with at least
`N_POINTS` points. -/
def Op.fits : Op F → Bool
  | Op.run_cycle inp => inp.new_frame && decide (N_POINTS ≤ inp.extract_points.length)
  | _ => false

/-! ## Concrete inputs used by the examples -/

/-- A point tracker whose state is the fitted pose itself: every fit yields the
identity rotation at translation `(0, 0, 100)`, and `reset_state` keeps the pose. -/
def sample_tracker : PointTracker (Affine F) F :=
  ⟨fun _ _ _ _ _ => ⟨1, ![0, 0, 100]⟩, fun X => X, fun X => X⟩

/-- A focal length for the examples: the horizontal resolution of the camera. -/
def sample_focal_length (info : pt_camera_info F) : F := (info.res_x : F)

/-- The tracker right after construction: default settings, the zero/identity pose, no
points, no fit yet. -/
def never_fitted : Tracker_PT (Affine F) F :=
  ⟨{}, Affine.eye, [], 0, false⟩

/-- A tracker that has fitted the identity rotation at translation `(0, 0, 100)`. -/
def fitted_at_100 : Tracker_PT (Affine F) F :=
  ⟨{}, ⟨1, ![0, 0, 100]⟩, [], 3, true⟩

/-- The camera info of a 640x480 camera. -/
def vga_info : pt_camera_info F :=
  { fov := 56, fps := 30, res_x := 640, res_y := 480, idx := 0 }

/-- A cycle in which the camera has no new frame. -/
def no_frame : CycleInput F := ⟨true, (false, vga_info), []⟩

/-- A cycle with a new frame in which the extractor finds no point. -/
def frame_without_points : CycleInput F := ⟨true, (true, vga_info), []⟩

/-- A cycle with a new frame in which the extractor finds three points. -/
def frame_with_three_points : CycleInput F :=
  ⟨true, (true, vga_info), [![0, 0], ![1, 0], ![0, 1]]⟩

/-- A tracker whose fitted rotation is at gimbal lock: after the change of basis the last
row of the rotation matrix is `(-1, 0, 0)`. -/
def fitted_at_gimbal_lock : Tracker_PT (Affine F) F :=
  ⟨{}, ⟨!![1, 0, 0; 0, 0, 1; 0, -1, 0], ![0, 0, 100]⟩, [], 3, true⟩

/-- A tracker whose fitted rotation is a quarter turn about the y axis of the camera
frame. -/
def fitted_at_quarter_yaw : Tracker_PT (Affine F) F :=
  ⟨{}, ⟨Ry 0 1, ![0, 0, 100]⟩, [], 3, true⟩

/-- A tracker right after construction whose settings put the head 5 units in front of
the model: the zero/identity pose, no fit yet, model-to-head offset `(0, 0, 5)`. -/
def never_fitted_with_offset : Tracker_PT (Affine F) F :=
  ⟨{ t_MH_z := 5 }, Affine.eye, [], 0, false⟩

/-! ## Lemmas on the cycle -/

theorem run_cycle_without_frame {PT : Type} (pt : PointTracker PT F)
    (gfl : pt_camera_info F → F) (st : Tracker_PT PT F) (inp : CycleInput F)
    (h : inp.new_frame = false) :
    st.run_cycle pt gfl inp =
      (st, [Event.lock Mutex.camera_mtx] ++ (if inp.camera then [Event.get_frame] else [])
        ++ [Event.unlock Mutex.camera_mtx]) := by
  simp [Tracker_PT.run_cycle, h]

theorem run_cycle_few_points {PT : Type} (pt : PointTracker PT F)
    (gfl : pt_camera_info F → F) (st : Tracker_PT PT F) (inp : CycleInput F)
    (h : inp.new_frame = true) (hn : inp.extract_points.length < N_POINTS) :
    st.run_cycle pt gfl inp =
      ({ st with points := inp.extract_points, point_count := inp.extract_points.length },
        [Event.lock Mutex.camera_mtx] ++ (if inp.camera then [Event.get_frame] else [])
          ++ [Event.unlock Mutex.camera_mtx] ++ [Event.copy_frame, Event.extract_points]
          ++ [Event.lock Mutex.data_mtx, Event.read_pose, Event.unlock Mutex.data_mtx,
              Event.divide (head_position pt st 0 * gfl inp.cam_info) (head_position pt st 2),
              Event.divide (head_position pt st 1 * gfl inp.cam_info) (head_position pt st 2),
              Event.draw_head_center
                ((head_position pt st 0 * gfl inp.cam_info) / head_position pt st 2)
                ((head_position pt st 1 * gfl inp.cam_info) / head_position pt st 2),
              Event.update_image]) := by
  have hn' : ¬ N_POINTS ≤ inp.extract_points.length := Nat.not_le.mpr hn
  simp [Tracker_PT.run_cycle, h, hn', head_position]

theorem run_cycle_fit {PT : Type} (pt : PointTracker PT F)
    (gfl : pt_camera_info F → F) (st : Tracker_PT PT F) (inp : CycleInput F)
    (h : inp.new_frame = true) (hn : N_POINTS ≤ inp.extract_points.length) :
    (st.run_cycle pt gfl inp).1 =
        { st with
          points := inp.extract_points
          point_count := inp.extract_points.length
          point_tracker := pt.track st.point_tracker inp.extract_points st.s inp.cam_info
            (if st.s.dynamic_pose then st.s.init_phase_timeout else 0)
          ever_success := true } ∧
      (st.run_cycle pt gfl inp).2 =
        [Event.lock Mutex.camera_mtx] ++ (if inp.camera then [Event.get_frame] else [])
          ++ [Event.unlock Mutex.camera_mtx] ++ [Event.copy_frame, Event.extract_points]
          ++ [Event.track inp.extract_points
                (if st.s.dynamic_pose then st.s.init_phase_timeout else 0)]
          ++ [Event.lock Mutex.data_mtx, Event.read_pose, Event.unlock Mutex.data_mtx,
              Event.divide
                (head_position pt (st.run_cycle pt gfl inp).1 0 * gfl inp.cam_info)
                (head_position pt (st.run_cycle pt gfl inp).1 2),
              Event.divide
                (head_position pt (st.run_cycle pt gfl inp).1 1 * gfl inp.cam_info)
                (head_position pt (st.run_cycle pt gfl inp).1 2),
              Event.draw_head_center
                ((head_position pt (st.run_cycle pt gfl inp).1 0 * gfl inp.cam_info)
                  / head_position pt (st.run_cycle pt gfl inp).1 2)
                ((head_position pt (st.run_cycle pt gfl inp).1 1 * gfl inp.cam_info)
                  / head_position pt (st.run_cycle pt gfl inp).1 2),
              Event.update_image] := by
  simp [Tracker_PT.run_cycle, h, hn, head_position]

/-! ## C2: a cycle that cannot fit keeps the last pose -/

/-- C2: in one cycle of `Tracker_PT::run`, if the camera delivers no new frame or the
extractor returns fewer than `N_POINTS` points, then `track` is not called and the point
tracker, the pose it reports and the flag `ever_success` are the same after the cycle as
before it. -/
theorem run_cycle_keeps_last_pose {PT : Type} (pt : PointTracker PT F)
    (gfl : pt_camera_info F → F) (st : Tracker_PT PT F) (inp : CycleInput F)
    (h : inp.new_frame = false ∨ inp.extract_points.length < N_POINTS) :
    (∀ pts tmo, Event.track pts tmo ∉ (st.run_cycle pt gfl inp).2) ∧
      (st.run_cycle pt gfl inp).1.point_tracker = st.point_tracker ∧
      (st.run_cycle pt gfl inp).1.pose pt = st.pose pt ∧
      (st.run_cycle pt gfl inp).1.ever_success = st.ever_success := by
  by_cases hf : inp.new_frame = true
  · have hn : inp.extract_points.length < N_POINTS := by
      rcases h with h | h
      · rw [h] at hf; exact absurd hf (by decide)
      · exact h
    rw [run_cycle_few_points pt gfl st inp hf hn]
    refine ⟨?_, rfl, rfl, rfl⟩
    intro pts tmo hmem
    by_cases hc : inp.camera <;> simp [hc] at hmem
  · have hf' : inp.new_frame = false := by simpa using hf
    rw [run_cycle_without_frame pt gfl st inp hf']
    refine ⟨?_, rfl, rfl, rfl⟩
    intro pts tmo hmem
    by_cases hc : inp.camera <;> simp [hc] at hmem

/-- C2 at concrete inputs: a fitted tracker keeps its pose `(0, 0, 100)` and its flag
both through a cycle without a frame and through a frame without points. -/
theorem run_cycle_keeps_last_pose_witness :
    ((fitted_at_100.run_cycle sample_tracker sample_focal_length
          (frame_without_points : CycleInput ℚ)).1.pose sample_tracker
        = (fitted_at_100 : Tracker_PT (Affine ℚ) ℚ).pose sample_tracker) ∧
      ((fitted_at_100.run_cycle sample_tracker sample_focal_length
          (no_frame : CycleInput ℚ)).1.ever_success
        = (fitted_at_100 : Tracker_PT (Affine ℚ) ℚ).ever_success) :=
  ⟨(run_cycle_keeps_last_pose sample_tracker sample_focal_length fitted_at_100
      frame_without_points (Or.inr (by decide))).2.2.1,
    (run_cycle_keeps_last_pose sample_tracker sample_focal_length fitted_at_100
      no_frame (Or.inl rfl)).2.2.2⟩

/-! ## C3: the divisions of the head-center projection -/

/-- C3: the projection is not guarded.  In the first cycle of a never-fitted tracker
(identity pose, zero offset) that receives a frame without points, the divisor `p.z` is
zero and the cycle evaluates the division `(p.x*fx)/p.z` all the same. -/
theorem run_cycle_divides_by_zero :
    (frame_without_points : CycleInput ℚ).new_frame = true ∧
      head_position sample_tracker (never_fitted : Tracker_PT (Affine ℚ) ℚ) 2 = 0 ∧
      Event.divide (0 : ℚ) 0 ∈
        (never_fitted.run_cycle sample_tracker sample_focal_length
          (frame_without_points : CycleInput ℚ)).2 := by
  have hz : ∀ i, head_position sample_tracker (never_fitted : Tracker_PT (Affine ℚ) ℚ) i = 0 := by
    intro i
    fin_cases i <;>
      simp [head_position, never_fitted, sample_tracker, Affine.eye, Affine.mul, X_MH]
  refine ⟨rfl, hz 2, ?_⟩
  rw [run_cycle_few_points sample_tracker sample_focal_length never_fitted
    frame_without_points rfl (by decide)]
  simp [hz]

/-- The divisions a cycle evaluates are exactly `(p.x*fx)/p.z` and `(p.y*fx)/p.z` in every
cycle with a new frame, whatever the value of the divisor `p.z`, and none in a cycle
without a new frame; here `p` is the translation of the pose after the cycle composed with
the model-to-head offset. -/
theorem run_cycle_divisions {PT : Type} (pt : PointTracker PT F)
    (gfl : pt_camera_info F → F) (st : Tracker_PT PT F) (inp : CycleInput F) (n d : F) :
    Event.divide n d ∈ (st.run_cycle pt gfl inp).2 ↔
      inp.new_frame = true ∧ d = head_position pt (st.run_cycle pt gfl inp).1 2 ∧
        (n = head_position pt (st.run_cycle pt gfl inp).1 0 * gfl inp.cam_info ∨
          n = head_position pt (st.run_cycle pt gfl inp).1 1 * gfl inp.cam_info) := by
  by_cases hf : inp.new_frame = true
  · by_cases hn : N_POINTS ≤ inp.extract_points.length
    · obtain ⟨_, h2⟩ := run_cycle_fit pt gfl st inp hf hn
      rw [h2]
      by_cases hc : inp.camera <;> simp [hc, hf] <;> tauto
    · have hn' : inp.extract_points.length < N_POINTS := Nat.not_le.mp hn
      rw [run_cycle_few_points pt gfl st inp hf hn']
      by_cases hc : inp.camera <;> simp [hc, hf, head_position] <;> tauto
  · have hf' : inp.new_frame = false := by simpa using hf
    rw [run_cycle_without_frame pt gfl st inp hf']
    by_cases hc : inp.camera <;> simp [hc, hf']

/-! ## C4: drawing the head center -/

theorem run_cycle_draw_events {PT : Type} (pt : PointTracker PT F)
    (gfl : pt_camera_info F → F) (st : Tracker_PT PT F) (inp : CycleInput F) (x y : F) :
    Event.draw_head_center x y ∈ (st.run_cycle pt gfl inp).2 ↔
      inp.new_frame = true ∧
        x = (head_position pt (st.run_cycle pt gfl inp).1 0 * gfl inp.cam_info)
              / head_position pt (st.run_cycle pt gfl inp).1 2 ∧
        y = (head_position pt (st.run_cycle pt gfl inp).1 1 * gfl inp.cam_info)
              / head_position pt (st.run_cycle pt gfl inp).1 2 := by
  by_cases hf : inp.new_frame = true
  · by_cases hn : N_POINTS ≤ inp.extract_points.length
    · obtain ⟨_, h2⟩ := run_cycle_fit pt gfl st inp hf hn
      rw [h2]
      by_cases hc : inp.camera <;> simp [hc, hf]
    · have hn' : inp.extract_points.length < N_POINTS := Nat.not_le.mp hn
      rw [run_cycle_few_points pt gfl st inp hf hn']
      by_cases hc : inp.camera <;> simp [hc, hf, head_position]
  · have hf' : inp.new_frame = false := by simpa using hf
    rw [run_cycle_without_frame pt gfl st inp hf']
    by_cases hc : inp.camera <;> simp [hc, hf']

theorem head_position_never_fitted_with_offset :
    head_position sample_tracker (never_fitted_with_offset : Tracker_PT (Affine ℚ) ℚ)
      = ![0, 0, 5] := by
  ext i
  fin_cases i <;>
    simp [head_position, never_fitted_with_offset, sample_tracker, Affine.eye, Affine.mul,
      X_MH]

theorem head_position_after_frame_without_points :
    head_position sample_tracker
        ((fitted_at_100 : Tracker_PT (Affine ℚ) ℚ).run_cycle sample_tracker
          sample_focal_length frame_without_points).1
      = ![0, 0, 100] := by
  rw [run_cycle_few_points sample_tracker sample_focal_length fitted_at_100
    frame_without_points rfl (by decide)]
  ext i
  fin_cases i <;>
    simp [head_position, fitted_at_100, sample_tracker, Affine.mul, X_MH]

/-- C4 fails as stated: a never-fitted tracker with model-to-head offset `(0, 0, 5)` that
receives a frame without points has still never fitted after the cycle, the divisor `p.z`
is 5, and the cycle draws the head center at `(0, 0)`. -/
theorem run_cycle_draws_without_fit :
    (never_fitted_with_offset : Tracker_PT (Affine ℚ) ℚ).ever_success = false ∧
      (never_fitted_with_offset.run_cycle sample_tracker sample_focal_length
        (frame_without_points : CycleInput ℚ)).1.ever_success = false ∧
      head_position sample_tracker (never_fitted_with_offset : Tracker_PT (Affine ℚ) ℚ) 2 = 5 ∧
      Event.draw_head_center (0 : ℚ) 0 ∈
        (never_fitted_with_offset.run_cycle sample_tracker sample_focal_length
          (frame_without_points : CycleInput ℚ)).2 := by
  rw [run_cycle_few_points sample_tracker sample_focal_length never_fitted_with_offset
    frame_without_points rfl (by decide)]
  refine ⟨rfl, rfl, by simp [head_position_never_fitted_with_offset], ?_⟩
  simp [head_position_never_fitted_with_offset]

/-- C4 as amended: in every cycle that receives a new frame and in which the divisor `p.z` is
not zero, `draw_head_center` is called with `(p.x*fx/p.z, p.y*fx/p.z)` and with nothing else,
whether or not fitting ran in the cycle and whether or not a fit has ever succeeded; `p` is
the translation of the pose after the cycle composed with the model-to-head offset.  In a
cycle without a new frame `draw_head_center` is not called. -/
theorem run_cycle_draw_head_center {PT : Type} (pt : PointTracker PT F)
    (gfl : pt_camera_info F → F) (st : Tracker_PT PT F) (inp : CycleInput F) :
    (inp.new_frame = true → head_position pt (st.run_cycle pt gfl inp).1 2 ≠ 0 →
        Event.draw_head_center
            ((head_position pt (st.run_cycle pt gfl inp).1 0 * gfl inp.cam_info)
              / head_position pt (st.run_cycle pt gfl inp).1 2)
            ((head_position pt (st.run_cycle pt gfl inp).1 1 * gfl inp.cam_info)
              / head_position pt (st.run_cycle pt gfl inp).1 2)
          ∈ (st.run_cycle pt gfl inp).2 ∧
        ∀ x y, Event.draw_head_center x y ∈ (st.run_cycle pt gfl inp).2 →
          x = (head_position pt (st.run_cycle pt gfl inp).1 0 * gfl inp.cam_info)
                / head_position pt (st.run_cycle pt gfl inp).1 2 ∧
          y = (head_position pt (st.run_cycle pt gfl inp).1 1 * gfl inp.cam_info)
                / head_position pt (st.run_cycle pt gfl inp).1 2) ∧
      (inp.new_frame = false →
        ∀ x y, Event.draw_head_center x y ∉ (st.run_cycle pt gfl inp).2) := by
  refine ⟨fun hf _ => ⟨?_, ?_⟩, fun hf x y hmem => ?_⟩
  · exact (run_cycle_draw_events pt gfl st inp _ _).mpr ⟨hf, rfl, rfl⟩
  · intro x y hmem
    exact ((run_cycle_draw_events pt gfl st inp x y).mp hmem).2
  · have := ((run_cycle_draw_events pt gfl st inp x y).mp hmem).1
    rw [hf] at this
    exact absurd this (by decide)

/-- C4 at concrete inputs: a tracker fitted at `(0, 0, 100)` that receives a frame without
points does not fit in that cycle and draws the head center from its last pose, at
`(0*640/100, 0*640/100) = (0, 0)`; in a cycle without a frame it draws nothing. -/
theorem run_cycle_draw_head_center_witness :
    (Event.draw_head_center (0 : ℚ) 0
        ∈ (fitted_at_100.run_cycle sample_tracker sample_focal_length
            (frame_without_points : CycleInput ℚ)).2) ∧
      (∀ x y : ℚ, Event.draw_head_center x y ∉
        (fitted_at_100.run_cycle sample_tracker sample_focal_length
          (no_frame : CycleInput ℚ)).2) :=
  ⟨by
      have h := ((run_cycle_draw_head_center sample_tracker sample_focal_length
        (fitted_at_100 : Tracker_PT (Affine ℚ) ℚ) frame_without_points).1 rfl
        (by rw [head_position_after_frame_without_points]; simp)).1
      rw [head_position_after_frame_without_points] at h
      simpa using h,
    (run_cycle_draw_head_center sample_tracker sample_focal_length
      (fitted_at_100 : Tracker_PT (Affine ℚ) ℚ) no_frame).2 rfl⟩

/-! ## C5: the flag ever_success gates data -/

/-- C5: with `ever_success = false`, `Tracker_PT::data` leaves the array of the caller as
it is; with `ever_success = true` it leaves every entry other than TX, TY, TZ, Yaw, Pitch,
Roll as it is and gives each of these six a value that does not depend on what the array
held before. -/
theorem data_gated_by_ever_success {PT : Type} (m : MathImports F) (pt : PointTracker PT F)
    (st : Tracker_PT PT F) (arr : Nat → F) :
    (st.ever_success = false → st.data m pt arr = arr) ∧
      (st.ever_success = true →
        (∀ i, i ∉ [TX, TY, TZ, Yaw, Pitch, Roll] → st.data m pt arr i = arr i) ∧
        (∀ i, i ∈ [TX, TY, TZ, Yaw, Pitch, Roll] →
          ∀ arr2 : Nat → F, st.data m pt arr i = st.data m pt arr2 i)) := by
  refine ⟨fun h => by simp [Tracker_PT.data, h], fun h => ⟨?_, ?_⟩⟩
  · intro i hi
    simp only [List.mem_cons, List.mem_singleton, List.not_mem_nil, or_false, not_or] at hi
    obtain ⟨h0, h1, h2, h3, h4, h5⟩ := hi
    simp [Tracker_PT.data, h, store, h0, h1, h2, h3, h4, h5]
  · intro i hi arr2
    simp only [List.mem_cons, List.mem_singleton, List.not_mem_nil, or_false] at hi
    rcases hi with hi | hi | hi | hi | hi | hi <;>
      simp [Tracker_PT.data, h, store, hi, TX, TY, TZ, Yaw, Pitch, Roll]

/-- C5 at concrete inputs: a never-fitted tracker returns the array it was given, and a
fitted one leaves entry 6 alone. -/
theorem data_gated_by_ever_success_witness :
    ((never_fitted : Tracker_PT (Affine ℚ) ℚ).data ⟨fun y _ => y, fun x => x, 1⟩
        sample_tracker (fun i : Nat => (i : ℚ)) = fun i : Nat => (i : ℚ)) ∧
      ((fitted_at_100 : Tracker_PT (Affine ℚ) ℚ).data ⟨fun y _ => y, fun x => x, 1⟩
        sample_tracker (fun i : Nat => (i : ℚ)) 6 = ((6 : Nat) : ℚ)) :=
  ⟨(data_gated_by_ever_success _ sample_tracker never_fitted _).1 rfl,
    ((data_gated_by_ever_success _ sample_tracker fitted_at_100 _).2 rfl).1 6 (by decide)⟩

/-! ## C7: the lock held when the pose is written -/

/-- The predicate `track_under_data_mtx` accepts a trace that fits inside the lock. -/
theorem track_under_data_mtx_accepts :
    track_under_data_mtx []
      [Event.lock Mutex.data_mtx, Event.track ([] : List (vec2 ℚ)) 0,
        Event.unlock Mutex.data_mtx] = true := by
  decide

/-- C7: in every cycle of `Tracker_PT::run` that fits (new frame, at least `N_POINTS`
points), the call of `track`, which writes the pose, happens while `data_mtx` is not held:
the cycle takes `data_mtx` only afterwards, to read the pose. -/
theorem track_outside_data_mtx {PT : Type} (pt : PointTracker PT F)
    (gfl : pt_camera_info F → F) (st : Tracker_PT PT F) (inp : CycleInput F)
    (h : inp.new_frame = true) (hn : N_POINTS ≤ inp.extract_points.length) :
    track_under_data_mtx [] (st.run_cycle pt gfl inp).2 = false := by
  obtain ⟨_, h2⟩ := run_cycle_fit pt gfl st inp h hn
  rw [h2]
  by_cases hc : inp.camera <;> simp [hc, track_under_data_mtx, locks_after]

/-- C7 at a concrete input: a never-fitted tracker receiving a frame with three points
calls `track` outside `data_mtx`. -/
theorem track_outside_data_mtx_witness :
    track_under_data_mtx []
      (never_fitted.run_cycle sample_tracker sample_focal_length
        (frame_with_three_points : CycleInput ℚ)).2 = false :=
  track_outside_data_mtx sample_tracker sample_focal_length never_fitted
    frame_with_three_points rfl (by decide)

/-! ## C10: ever_success is monotone -/

theorem step_ever_success {PT : Type} (pt : PointTracker PT F)
    (gfl : pt_camera_info F → F) (st : Tracker_PT PT F) (op : Op F) :
    (st.step pt gfl op).ever_success = (st.ever_success || op.fits) := by
  cases op with
  | run_cycle inp =>
    by_cases hf : inp.new_frame = true
    · by_cases hn : N_POINTS ≤ inp.extract_points.length
      · have h1 := (run_cycle_fit pt gfl st inp hf hn).1
        simp [Tracker_PT.step, Op.fits, h1, hf, hn]
      · have hn' : inp.extract_points.length < N_POINTS := Nat.not_le.mp hn
        simp [Tracker_PT.step, Op.fits, run_cycle_few_points pt gfl st inp hf hn', hn]
    · have hf' : inp.new_frame = false := by simpa using hf
      simp [Tracker_PT.step, Op.fits, run_cycle_without_frame pt gfl st inp hf', hf']
  | maybe_reopen_camera status =>
    cases status <;> simp [Tracker_PT.step, Op.fits, Tracker_PT.maybe_reopen_camera]
  | set_fov value => simp [Tracker_PT.step, Op.fits, Tracker_PT.set_fov]
  | center => simp [Tracker_PT.step, Op.fits, Tracker_PT.center]
  | data arr => simp [Tracker_PT.step, Op.fits]
  | pose => simp [Tracker_PT.step, Op.fits]
  | get_n_points => simp [Tracker_PT.step, Op.fits]
  | get_cam_info result => simp [Tracker_PT.step, Op.fits]

theorem foldl_step_ever_success {PT : Type} (pt : PointTracker PT F)
    (gfl : pt_camera_info F → F) (ops : List (Op F)) :
    ∀ st : Tracker_PT PT F,
      (ops.foldl (Tracker_PT.step pt gfl) st).ever_success
        = (st.ever_success || ops.any Op.fits) := by
  induction ops with
  | nil => intro st; simp
  | cons op ops ih =>
    intro st
    rw [List.foldl_cons, ih, step_ever_success, List.any_cons, Bool.or_assoc]

/-- C10: an operation of `Tracker_PT` leaves `ever_success` true when it was true, and
makes it true exactly when it is a cycle of `run` that receives a new frame with at least
`N_POINTS` points; so after any sequence of operations the flag is true if and only if it
was true at the start or one of the operations was such a cycle, and once true it stays
true. -/
theorem ever_success_monotone {PT : Type} (pt : PointTracker PT F)
    (gfl : pt_camera_info F → F) (st : Tracker_PT PT F) :
    (∀ op : Op F, (st.step pt gfl op).ever_success = (st.ever_success || op.fits)) ∧
      (∀ ops : List (Op F),
        (ops.foldl (Tracker_PT.step pt gfl) st).ever_success
          = (st.ever_success || ops.any Op.fits)) ∧
      (∀ ops : List (Op F), st.ever_success = true →
        (ops.foldl (Tracker_PT.step pt gfl) st).ever_success = true) := by
  refine ⟨step_ever_success pt gfl st, fun ops => foldl_step_ever_success pt gfl ops st, ?_⟩
  intro ops h
  rw [foldl_step_ever_success, h, Bool.true_or]

/-- C10 at a concrete input: a fitted tracker is still marked fitted after a reopen with
an error status, a change of the field of view, a centering and a cycle without a frame. -/
theorem ever_success_monotone_witness :
    ([Op.maybe_reopen_camera pt_camera_open_status.cam_open_error, Op.set_fov 60, Op.center,
        Op.run_cycle no_frame].foldl (Tracker_PT.step sample_tracker sample_focal_length)
      (fitted_at_100 : Tracker_PT (Affine ℚ) ℚ)).ever_success = true :=
  (ever_success_monotone sample_tracker sample_focal_length fitted_at_100).2.2 _ rfl

/-! ## C8: the change of basis -/

theorem R_EG_transpose :
    (R_EG : mat33 F).transpose = !![0, -1, 0; 0, 0, 1; -1, 0, 0] := by
  ext i j
  fin_cases i <;> fin_cases j <;> rfl

theorem R_EG_mul_transpose : (R_EG : mat33 F) * R_EG.transpose = 1 := by
  rw [R_EG_transpose]
  ext i j
  fin_cases i <;> fin_cases j <;>
    simp [R_EG, Matrix.mul_apply, Fin.sum_univ_three, Matrix.one_apply, Matrix.vecHead,
      Matrix.vecTail]

theorem R_EG_transpose_mul : (R_EG : mat33 F).transpose * R_EG = 1 := by
  rw [R_EG_transpose]
  ext i j
  fin_cases i <;> fin_cases j <;>
    simp [R_EG, Matrix.mul_apply, Fin.sum_univ_three, Matrix.one_apply, Matrix.vecHead,
      Matrix.vecTail]

theorem R_EG_det : (R_EG : mat33 F).det = 1 := by
  simp [R_EG, Matrix.det_fin_three]

/-- C8: the matrix `R_EG` has the rows `(0,0,-1)`, `(-1,0,0)`, `(0,1,0)`, maps `(x,y,z)` to
`(-z,-x,y)`, satisfies `R_EG * R_EG^T = I` and `det R_EG = 1`; and for every orthonormal
matrix `X` the re-based matrix `R_EG * X * R_EG^T` is orthonormal with the determinant of
`X`. -/
theorem R_EG_proper_rotation :
    ((R_EG : mat33 F) 0 = ![0, 0, -1] ∧ (R_EG : mat33 F) 1 = ![-1, 0, 0] ∧
        (R_EG : mat33 F) 2 = ![0, 1, 0]) ∧
      (∀ x y z : F, (R_EG : mat33 F).mulVec ![x, y, z] = ![-z, -x, y]) ∧
      (R_EG : mat33 F) * R_EG.transpose = 1 ∧
      (R_EG : mat33 F).det = 1 ∧
      (∀ X : mat33 F, X * X.transpose = 1 →
        (R_EG * X * R_EG.transpose) * (R_EG * X * R_EG.transpose).transpose = 1 ∧
          (R_EG * X * R_EG.transpose).det = X.det) := by
  refine ⟨⟨?_, ?_, ?_⟩, ?_, R_EG_mul_transpose, R_EG_det, ?_⟩
  · rfl
  · rfl
  · rfl
  · intro x y z
    ext i
    fin_cases i <;> simp [R_EG, Matrix.mulVec, Matrix.dotProduct, Fin.sum_univ_three]
  · intro X hX
    constructor
    · rw [Matrix.transpose_mul, Matrix.transpose_mul, Matrix.transpose_transpose]
      calc R_EG * X * R_EG.transpose * (R_EG * (X.transpose * R_EG.transpose))
          = R_EG * X * (R_EG.transpose * R_EG) * X.transpose * R_EG.transpose := by
            simp only [Matrix.mul_assoc]
        _ = R_EG * (X * X.transpose) * R_EG.transpose := by
            rw [R_EG_transpose_mul, Matrix.mul_one, Matrix.mul_assoc R_EG X]
        _ = 1 := by rw [hX, Matrix.mul_one, R_EG_mul_transpose]
    · rw [Matrix.det_mul, Matrix.det_mul, Matrix.det_transpose, R_EG_det, one_mul, mul_one]

/-- C8 at a concrete input: re-basing `R_EG` itself, which is orthonormal, gives an
orthonormal matrix of determinant `det R_EG`. -/
theorem R_EG_proper_rotation_witness :
    ((R_EG : mat33 ℚ) * R_EG * R_EG.transpose)
          * ((R_EG : mat33 ℚ) * R_EG * R_EG.transpose).transpose = 1 ∧
      ((R_EG : mat33 ℚ) * R_EG * R_EG.transpose).det = (R_EG : mat33 ℚ).det :=
  R_EG_proper_rotation.2.2.2.2 R_EG R_EG_mul_transpose

/-! ## What data writes -/

theorem data_angles {PT : Type} (m : MathImports F) (pt : PointTracker PT F)
    (st : Tracker_PT PT F) (arr : Nat → F) (h : st.ever_success = true) :
    (st.data m pt arr Yaw, st.data m pt arr Pitch, st.data m pt arr Roll)
      = rotation_angles m (R_EG * (st.pose pt).R * R_EG.transpose) := by
  simp [Tracker_PT.data, h, store, Yaw, Pitch, Roll, TX, TY, TZ, rotation_angles,
    Affine.mul, X_MH]

theorem data_translation {PT : Type} (m : MathImports F) (pt : PointTracker PT F)
    (st : Tracker_PT PT F) (arr : Nat → F) (h : st.ever_success = true) :
    st.data m pt arr TX = head_position pt st 0 / 10 ∧
      st.data m pt arr TY = head_position pt st 1 / 10 ∧
      st.data m pt arr TZ = head_position pt st 2 / 10 := by
  simp [Tracker_PT.data, h, store, TX, TY, TZ, head_position, Tracker_PT.pose]

theorem head_position_zero_offset {PT : Type} (pt : PointTracker PT F)
    (st : Tracker_PT PT F)
    (hoff : st.s.t_MH_x = 0 ∧ st.s.t_MH_y = 0 ∧ st.s.t_MH_z = 0) :
    head_position pt st = (st.pose pt).t := by
  obtain ⟨hx, hy, hz⟩ := hoff
  ext i
  fin_cases i <;>
    simp [head_position, Tracker_PT.pose, Affine.mul, X_MH, hx, hy, hz, Matrix.mulVec,
      Matrix.dotProduct, Fin.sum_univ_three]

/-! ## The math header over the reals -/

theorem real_atan2_zero_one (m : MathImports ℝ) (hm : RealMath m) : m.atan2 0 1 = 0 := by
  rw [hm.1]
  have : (⟨1, 0⟩ : ℂ) = 1 := rfl
  rw [this, Complex.arg_one]

theorem real_sqrt_one (m : MathImports ℝ) (hm : RealMath m) : m.sqrt 1 = 1 := by
  rw [hm.2.1, Real.sqrt_one]

theorem real_rad2deg_pos (m : MathImports ℝ) (hm : RealMath m) : 0 < m.rad2deg := by
  rw [hm.2.2]
  exact div_pos (by norm_num) Real.pi_pos

theorem real_rad2deg_mul_pi (m : MathImports ℝ) (hm : RealMath m) :
    m.rad2deg * Real.pi = 180 := by
  rw [hm.2.2]
  field_simp

theorem real_atan2_abs_le (m : MathImports ℝ) (hm : RealMath m) (y x : ℝ) :
    |m.rad2deg * m.atan2 y x| ≤ 180 := by
  rw [hm.1, abs_mul, abs_of_pos (real_rad2deg_pos m hm), ← real_rad2deg_mul_pi m hm]
  exact mul_le_mul_of_nonneg_left (Complex.abs_arg_le_pi _) (real_rad2deg_pos m hm).le

theorem real_atan2_abs_le_right (m : MathImports ℝ) (hm : RealMath m) (y x : ℝ)
    (hx : 0 ≤ x) : |m.rad2deg * m.atan2 y x| ≤ 90 := by
  have h90 : m.rad2deg * (Real.pi / 2) = 90 := by
    rw [← mul_div_assoc, real_rad2deg_mul_pi m hm]; norm_num
  rw [hm.1, abs_mul, abs_of_pos (real_rad2deg_pos m hm), ← h90]
  refine mul_le_mul_of_nonneg_left ?_ (real_rad2deg_pos m hm).le
  exact Complex.abs_arg_le_pi_div_two_iff.mpr hx

theorem real_atan2_polar (m : MathImports ℝ) (hm : RealMath m) (r θ : ℝ) (hr : 0 < r)
    (hθ : θ ∈ Set.Ioc (-Real.pi) Real.pi) :
    m.atan2 (r * Real.sin θ) (r * Real.cos θ) = θ := by
  rw [hm.1]
  have h : (⟨r * Real.cos θ, r * Real.sin θ⟩ : ℂ)
      = (r : ℂ) * (Complex.cos θ + Complex.sin θ * Complex.I) := by
    apply Complex.ext
    · simp [← Complex.ofReal_cos, ← Complex.ofReal_sin]
    · simp [← Complex.ofReal_cos, ← Complex.ofReal_sin]
  rw [h]
  exact Complex.arg_mul_cos_add_sin_mul_I hr hθ

/-! ## C1: identity rotation -/

/-- C1: once a fit has succeeded and with the model-to-head offset `(0,0,0)`, for every pose
with identity rotation and translation `t`, over the reals `Tracker_PT::data` writes
Yaw = Pitch = Roll = 0 and TX = t.x/10, TY = t.y/10, TZ = t.z/10; for `t = (0,0,100)` this is
TX = TY = 0, TZ = 10, and for `t = (0,0,50)` it is TX = TY = 0, TZ = 5. -/
theorem data_identity_rotation {PT : Type} (m : MathImports ℝ) (hm : RealMath m)
    (pt : PointTracker PT ℝ) (st : Tracker_PT PT ℝ) (arr : Nat → ℝ)
    (hs : st.ever_success = true)
    (hoff : st.s.t_MH_x = 0 ∧ st.s.t_MH_y = 0 ∧ st.s.t_MH_z = 0)
    (hR : (st.pose pt).R = 1) :
    (st.data m pt arr Yaw = 0 ∧ st.data m pt arr Pitch = 0 ∧ st.data m pt arr Roll = 0 ∧
        st.data m pt arr TX = (st.pose pt).t 0 / 10 ∧
        st.data m pt arr TY = (st.pose pt).t 1 / 10 ∧
        st.data m pt arr TZ = (st.pose pt).t 2 / 10) ∧
      ((st.pose pt).t = ![0, 0, 100] →
        st.data m pt arr TX = 0 ∧ st.data m pt arr TY = 0 ∧ st.data m pt arr TZ = 10) ∧
      ((st.pose pt).t = ![0, 0, 50] →
        st.data m pt arr TX = 0 ∧ st.data m pt arr TY = 0 ∧ st.data m pt arr TZ = 5) := by
  have hA := data_angles m pt st arr hs
  rw [hR, Matrix.mul_one, R_EG_mul_transpose] at hA
  simp only [rotation_angles, Prod.mk.injEq] at hA
  obtain ⟨hyaw, hpitch, hroll⟩ := hA
  have hT := data_translation m pt st arr hs
  rw [head_position_zero_offset pt st hoff] at hT
  obtain ⟨hx, hy, hz⟩ := hT
  have e00 : (1 : mat33 ℝ) 0 0 = 1 := by simp
  have e10 : (1 : mat33 ℝ) 1 0 = 0 := by simp
  have e20 : (1 : mat33 ℝ) 2 0 = 0 := by simp
  have e21 : (1 : mat33 ℝ) 2 1 = 0 := by simp
  have e22 : (1 : mat33 ℝ) 2 2 = 1 := by simp
  rw [e10, e00, real_atan2_zero_one m hm, mul_zero] at hyaw
  rw [e20, e21, e22, neg_zero, mul_zero, zero_add, mul_one, real_sqrt_one m hm,
    real_atan2_zero_one m hm, mul_zero] at hpitch
  rw [e21, e22, real_atan2_zero_one m hm, mul_zero] at hroll
  refine ⟨⟨hyaw, hpitch, hroll, hx, hy, hz⟩, ?_, ?_⟩
  · intro ht
    rw [ht] at hx hy hz
    refine ⟨by simpa using hx, by simpa using hy, ?_⟩
    rw [hz]; norm_num
  · intro ht
    rw [ht] at hx hy hz
    refine ⟨by simpa using hx, by simpa using hy, ?_⟩
    rw [hz]; norm_num

/-- C1 at a concrete input: the identity rotation at translation `(0, 0, 100)` reads
TX = 0, TY = 0, TZ = 10 over the reals. -/
theorem data_identity_rotation_witness :
    (fitted_at_100 : Tracker_PT (Affine ℝ) ℝ).data
          ⟨fun y x => Complex.arg ⟨x, y⟩, Real.sqrt, 180 / Real.pi⟩
          sample_tracker (fun _ => 7) TX = 0 ∧
      (fitted_at_100 : Tracker_PT (Affine ℝ) ℝ).data
          ⟨fun y x => Complex.arg ⟨x, y⟩, Real.sqrt, 180 / Real.pi⟩
          sample_tracker (fun _ => 7) TY = 0 ∧
      (fitted_at_100 : Tracker_PT (Affine ℝ) ℝ).data
          ⟨fun y x => Complex.arg ⟨x, y⟩, Real.sqrt, 180 / Real.pi⟩
          sample_tracker (fun _ => 7) TZ = 10 :=
  (data_identity_rotation ⟨fun y x => Complex.arg ⟨x, y⟩, Real.sqrt, 180 / Real.pi⟩
    ⟨fun _ _ => rfl, fun _ => rfl, rfl⟩ sample_tracker fitted_at_100 (fun _ => 7) rfl
    ⟨rfl, rfl, rfl⟩ rfl).2.1 rfl

/-! ## C6: the angles are bounded -/

/-- C6: once a fit has succeeded, over the reals and for every rotation matrix of the pose
(orthonormal or not, gimbal lock included), the three angles `Tracker_PT::data` writes are
those of `rotation_angles`, a computation without division, and Yaw and Roll lie in
`[-180, 180]` and Pitch in `[-90, 90]`. -/
theorem data_angles_bounded {PT : Type} (m : MathImports ℝ) (hm : RealMath m)
    (pt : PointTracker PT ℝ) (st : Tracker_PT PT ℝ) (arr : Nat → ℝ)
    (hs : st.ever_success = true) :
    (st.data m pt arr Yaw, st.data m pt arr Pitch, st.data m pt arr Roll)
        = rotation_angles m (R_EG * (st.pose pt).R * R_EG.transpose) ∧
      (-180 ≤ st.data m pt arr Yaw ∧ st.data m pt arr Yaw ≤ 180) ∧
      (-90 ≤ st.data m pt arr Pitch ∧ st.data m pt arr Pitch ≤ 90) ∧
      (-180 ≤ st.data m pt arr Roll ∧ st.data m pt arr Roll ≤ 180) := by
  have hA := data_angles m pt st arr hs
  refine ⟨hA, ?_⟩
  simp only [rotation_angles, Prod.mk.injEq] at hA
  obtain ⟨hyaw, hpitch, hroll⟩ := hA
  rw [hyaw, hpitch, hroll, neg_mul]
  refine ⟨abs_le.mp (real_atan2_abs_le m hm _ _), ?_, abs_le.mp (real_atan2_abs_le m hm _ _)⟩
  have hb : ∀ y x : ℝ, |-(m.rad2deg * m.atan2 y (m.sqrt x))| ≤ 90 := by
    intro y x
    rw [abs_neg]
    exact real_atan2_abs_le_right m hm y _ (by rw [hm.2.1]; exact Real.sqrt_nonneg _)
  exact abs_le.mp (hb _ _)

/-- C6 at a concrete input: a pose at gimbal lock, where `R(2,1) = R(2,2) = 0`, yields a
pitch within `[-90, 90]`. -/
theorem data_angles_bounded_witness :
    ((R_EG * ((fitted_at_gimbal_lock : Tracker_PT (Affine ℝ) ℝ).pose sample_tracker).R
          * R_EG.transpose : mat33 ℝ) 2 1 = 0 ∧
        (R_EG * ((fitted_at_gimbal_lock : Tracker_PT (Affine ℝ) ℝ).pose sample_tracker).R
          * R_EG.transpose : mat33 ℝ) 2 2 = 0) ∧
      (-90 ≤ (fitted_at_gimbal_lock : Tracker_PT (Affine ℝ) ℝ).data
          ⟨fun y x => Complex.arg ⟨x, y⟩, Real.sqrt, 180 / Real.pi⟩
          sample_tracker (fun _ => 7) Pitch ∧
        (fitted_at_gimbal_lock : Tracker_PT (Affine ℝ) ℝ).data
          ⟨fun y x => Complex.arg ⟨x, y⟩, Real.sqrt, 180 / Real.pi⟩
          sample_tracker (fun _ => 7) Pitch ≤ 90) :=
  ⟨by
      rw [R_EG_transpose]
      constructor <;>
        simp [R_EG, fitted_at_gimbal_lock, sample_tracker, Tracker_PT.pose, Matrix.mul_apply,
          Fin.sum_univ_three, Matrix.vecHead, Matrix.vecTail],
    (data_angles_bounded ⟨fun y x => Complex.arg ⟨x, y⟩, Real.sqrt, 180 / Real.pi⟩
      ⟨fun _ _ => rfl, fun _ => rfl, rfl⟩ sample_tracker fitted_at_gimbal_lock (fun _ => 7)
      rfl).2.2.1⟩

/-! ## C9: Euler round trip -/

theorem euler_product_entries (ca sa cb sb cg sg : F) :
    (Rz ca sa * Ry cb sb * Rx cg sg) 0 0 = ca * cb ∧
      (Rz ca sa * Ry cb sb * Rx cg sg) 1 0 = sa * cb ∧
      (Rz ca sa * Ry cb sb * Rx cg sg) 2 0 = -sb ∧
      (Rz ca sa * Ry cb sb * Rx cg sg) 2 1 = cb * sg ∧
      (Rz ca sa * Ry cb sb * Rx cg sg) 2 2 = cb * cg := by
  refine ⟨?_, ?_, ?_, ?_, ?_⟩ <;>
    simp [Rz, Ry, Rx, Matrix.mul_apply, Fin.sum_univ_three, Matrix.vecHead, Matrix.vecTail]

theorem rebase_Ry (c s : F) :
    R_EG * Ry c s * R_EG.transpose = Rz c s * Ry 1 0 * Rx 1 0 := by
  rw [R_EG_transpose]
  ext i j
  fin_cases i <;> fin_cases j <;>
    simp [R_EG, Rz, Ry, Rx, Matrix.mul_apply, Fin.sum_univ_three, Matrix.vecHead,
      Matrix.vecTail]

theorem rotation_angles_euler (m : MathImports ℝ) (hm : RealMath m) (α β γ : ℝ)
    (hα : α ∈ Set.Ioc (-Real.pi) Real.pi)
    (hβ : β ∈ Set.Ioo (-(Real.pi / 2)) (Real.pi / 2))
    (hγ : γ ∈ Set.Ioc (-Real.pi) Real.pi) :
    rotation_angles m
        (Rz (Real.cos α) (Real.sin α) * Ry (Real.cos β) (Real.sin β)
          * Rx (Real.cos γ) (Real.sin γ))
      = (α * 180 / Real.pi, -β * 180 / Real.pi, γ * 180 / Real.pi) := by
  obtain ⟨e00, e10, e20, e21, e22⟩ :=
    euler_product_entries (Real.cos α) (Real.sin α) (Real.cos β) (Real.sin β)
      (Real.cos γ) (Real.sin γ)
  have hcb : 0 < Real.cos β := Real.cos_pos_of_mem_Ioo hβ
  have hβ' : β ∈ Set.Ioc (-Real.pi) Real.pi :=
    ⟨by linarith [hβ.1, Real.pi_pos], by linarith [hβ.2, Real.pi_pos]⟩
  have hsq : m.sqrt (Real.cos β * Real.sin γ * (Real.cos β * Real.sin γ)
      + Real.cos β * Real.cos γ * (Real.cos β * Real.cos γ)) = Real.cos β := by
    rw [hm.2.1]
    have : Real.cos β * Real.sin γ * (Real.cos β * Real.sin γ)
        + Real.cos β * Real.cos γ * (Real.cos β * Real.cos γ) = Real.cos β ^ 2 := by
      have h1 := Real.sin_sq_add_cos_sq γ
      calc Real.cos β * Real.sin γ * (Real.cos β * Real.sin γ)
            + Real.cos β * Real.cos γ * (Real.cos β * Real.cos γ)
          = Real.cos β ^ 2 * (Real.sin γ ^ 2 + Real.cos γ ^ 2) := by ring
        _ = Real.cos β ^ 2 := by rw [h1, mul_one]
    rw [this, Real.sqrt_sq hcb.le]
  have hbeta : m.atan2 (Real.sin β) (Real.cos β) = β := by
    have := real_atan2_polar m hm 1 β one_pos hβ'
    simpa using this
  have halpha : m.atan2 (Real.sin α * Real.cos β) (Real.cos α * Real.cos β) = α := by
    rw [mul_comm (Real.sin α), mul_comm (Real.cos α)]
    exact real_atan2_polar m hm _ α hcb hα
  have hgamma : m.atan2 (Real.cos β * Real.sin γ) (Real.cos β * Real.cos γ) = γ :=
    real_atan2_polar m hm _ γ hcb hγ
  simp only [rotation_angles, e00, e10, e20, e21, e22, neg_neg, hsq, hbeta, halpha, hgamma,
    hm.2.2]
  refine Prod.ext ?_ (Prod.ext ?_ ?_) <;> simp only <;> ring

/-- C9: over the reals and once a fit has succeeded, if the re-based rotation
`R_EG * X_CM.R * R_EG^T` equals `Rz(alpha) * Ry(beta) * Rx(gamma)` with `alpha` and `gamma` in
`(-pi, pi]` and `beta` in `(-pi/2, pi/2)`, then `Tracker_PT::data` writes
Yaw = alpha*180/pi, Pitch = -beta*180/pi and Roll = gamma*180/pi; and a pose that is the
rotation by `theta` in `(-pi, pi]` about the y axis of the camera frame gives
Yaw = theta*180/pi and Pitch = Roll = 0. -/
theorem data_euler_round_trip {PT : Type} (m : MathImports ℝ) (hm : RealMath m)
    (pt : PointTracker PT ℝ) (st : Tracker_PT PT ℝ) (arr : Nat → ℝ)
    (hs : st.ever_success = true) :
    (∀ α β γ : ℝ, α ∈ Set.Ioc (-Real.pi) Real.pi →
        β ∈ Set.Ioo (-(Real.pi / 2)) (Real.pi / 2) → γ ∈ Set.Ioc (-Real.pi) Real.pi →
        R_EG * (st.pose pt).R * R_EG.transpose
          = Rz (Real.cos α) (Real.sin α) * Ry (Real.cos β) (Real.sin β)
              * Rx (Real.cos γ) (Real.sin γ) →
        st.data m pt arr Yaw = α * 180 / Real.pi ∧
          st.data m pt arr Pitch = -β * 180 / Real.pi ∧
          st.data m pt arr Roll = γ * 180 / Real.pi) ∧
      (∀ θ : ℝ, θ ∈ Set.Ioc (-Real.pi) Real.pi →
        (st.pose pt).R = Ry (Real.cos θ) (Real.sin θ) →
        st.data m pt arr Yaw = θ * 180 / Real.pi ∧
          st.data m pt arr Pitch = 0 ∧ st.data m pt arr Roll = 0) := by
  have hA := data_angles m pt st arr hs
  have key : ∀ α β γ : ℝ, α ∈ Set.Ioc (-Real.pi) Real.pi →
      β ∈ Set.Ioo (-(Real.pi / 2)) (Real.pi / 2) → γ ∈ Set.Ioc (-Real.pi) Real.pi →
      R_EG * (st.pose pt).R * R_EG.transpose
        = Rz (Real.cos α) (Real.sin α) * Ry (Real.cos β) (Real.sin β)
            * Rx (Real.cos γ) (Real.sin γ) →
      st.data m pt arr Yaw = α * 180 / Real.pi ∧
        st.data m pt arr Pitch = -β * 180 / Real.pi ∧
        st.data m pt arr Roll = γ * 180 / Real.pi := by
    intro α β γ hα hβ hγ hR
    rw [hR, rotation_angles_euler m hm α β γ hα hβ hγ] at hA
    simpa only [Prod.mk.injEq] using hA
  refine ⟨key, ?_⟩
  intro θ hθ hR
  have h0 : (0 : ℝ) ∈ Set.Ioc (-Real.pi) Real.pi :=
    ⟨by linarith [Real.pi_pos], Real.pi_pos.le⟩
  have h0' : (0 : ℝ) ∈ Set.Ioo (-(Real.pi / 2)) (Real.pi / 2) :=
    ⟨by linarith [Real.pi_pos], by linarith [Real.pi_pos]⟩
  have := key θ 0 0 hθ h0' h0 (by rw [hR, rebase_Ry, Real.cos_zero, Real.sin_zero])
  simpa using this

/-- C9 at a concrete input: a pose turned by a quarter turn about the y axis of the camera
frame reads Yaw = (pi/2)*180/pi, Pitch = 0 and Roll = 0. -/
theorem data_euler_round_trip_witness :
    (fitted_at_quarter_yaw : Tracker_PT (Affine ℝ) ℝ).data
          ⟨fun y x => Complex.arg ⟨x, y⟩, Real.sqrt, 180 / Real.pi⟩
          sample_tracker (fun _ => 7) Yaw = Real.pi / 2 * 180 / Real.pi ∧
      (fitted_at_quarter_yaw : Tracker_PT (Affine ℝ) ℝ).data
          ⟨fun y x => Complex.arg ⟨x, y⟩, Real.sqrt, 180 / Real.pi⟩
          sample_tracker (fun _ => 7) Pitch = 0 ∧
      (fitted_at_quarter_yaw : Tracker_PT (Affine ℝ) ℝ).data
          ⟨fun y x => Complex.arg ⟨x, y⟩, Real.sqrt, 180 / Real.pi⟩
          sample_tracker (fun _ => 7) Roll = 0 :=
  (data_euler_round_trip ⟨fun y x => Complex.arg ⟨x, y⟩, Real.sqrt, 180 / Real.pi⟩
    ⟨fun _ _ => rfl, fun _ => rfl, rfl⟩ sample_tracker fitted_at_quarter_yaw (fun _ => 7)
    rfl).2 (Real.pi / 2)
    ⟨by linarith [Real.pi_pos], by linarith [Real.pi_pos]⟩
    (by
      rw [Real.cos_pi_div_two, Real.sin_pi_div_two]
      rfl)

end Opentrack
